import Mathlib

/-!
Verification of the silhouette-score engine in
`src/experiments/clustering/silhouette_score/src/main.rs`.

The Rust code works on `f64` values.  We embed `f64` shallowly as the type
`F64 α` below: a finite value carries an exact element of a linear ordered
field `α` (instantiated at `ℝ` for the program's own metric, and at `ℚ` for
decidable evaluations), plus the IEEE special values `nan`, `inf` (+∞) and
`ninf` (-∞).  Arithmetic on finite values is exact (rounding and overflow are
not modelled; none of the verified claims depends on them), and the special
values follow the IEEE-754 rules used by Rust `f64` for `+`, `-`, `*`, `/`,
`sqrt`, `<` and `f64::max`.  Signed zeros are not distinguished: the single
zero behaves as IEEE `+0.0`, which matches every zero the program can produce.

Rust panics (`panic!`, `unwrap()` on `None`, out-of-bounds indexing) are
embedded as the `Err.panic` error of an `Except Err` result.
-/

/-- Model of a Rust `f64` value over an exact field `α`: either one of the
IEEE special values or a finite value carrying an exact number. -/
inductive F64 (α : Type) : Type
  | nan : F64 α
  | inf : F64 α
  | ninf : F64 α
  | fin (x : α) : F64 α
deriving DecidableEq

/-- A point, as in the source: a vector of `f64` coordinates (`Vec<f64>`). -/
abbrev Pt (α : Type) := List (F64 α)

/-- Failure values of the embedded program.  `panic` models every Rust panic
(`panic!` with the given message, `unwrap()` on `None`, index out of bounds).
The remaining constructors are modelled from the spec: §7 names the error
kinds `EmptyDataset`, `EmptyCluster`, `DimensionMismatch` and
`SingleClusterDataset` as distinct recoverable error values, but the source
defines no error type at all; the constructors exist only so that the
error-handling claims can be stated and compared with what the code does. -/
inductive Err : Type
  | panic (msg : String) : Err
  | emptyDataset : Err
  | emptyCluster : Err
  | dimensionMismatch : Err
  | singleClusterDataset : Err
deriving DecidableEq

variable {α : Type} [LinearOrderedField α]

/-- IEEE `f64` addition (exact on finite values). -/
def F64.add : F64 α → F64 α → F64 α
  | .nan, _ => .nan
  | _, .nan => .nan
  | .inf, .ninf => .nan
  | .inf, _ => .inf
  | .ninf, .inf => .nan
  | .ninf, _ => .ninf
  | .fin _, .inf => .inf
  | .fin _, .ninf => .ninf
  | .fin x, .fin y => .fin (x + y)

/-- IEEE `f64` subtraction (exact on finite values). -/
def F64.sub : F64 α → F64 α → F64 α
  | .nan, _ => .nan
  | _, .nan => .nan
  | .inf, .inf => .nan
  | .inf, _ => .inf
  | .ninf, .ninf => .nan
  | .ninf, _ => .ninf
  | .fin _, .inf => .ninf
  | .fin _, .ninf => .inf
  | .fin x, .fin y => .fin (x - y)

/-- IEEE `f64` multiplication (exact on finite values); `±∞ * 0 = NaN`. -/
def F64.mul : F64 α → F64 α → F64 α
  | .nan, _ => .nan
  | _, .nan => .nan
  | .inf, .inf => .inf
  | .inf, .ninf => .ninf
  | .inf, .fin y => if y = 0 then .nan else if 0 < y then .inf else .ninf
  | .ninf, .inf => .ninf
  | .ninf, .ninf => .inf
  | .ninf, .fin y => if y = 0 then .nan else if 0 < y then .ninf else .inf
  | .fin x, .inf => if x = 0 then .nan else if 0 < x then .inf else .ninf
  | .fin x, .ninf => if x = 0 then .nan else if 0 < x then .ninf else .inf
  | .fin x, .fin y => .fin (x * y)

/-- IEEE `f64` division (exact on finite values); `0/0 = NaN`, `x/0 = ±∞` for
`x ≠ 0`, `±∞/±∞ = NaN`, `x/±∞ = 0` for finite `x` (the unsigned zero of the
model; the divisor zero behaves as `+0.0`, the only zero the program forms). -/
def F64.div : F64 α → F64 α → F64 α
  | .nan, _ => .nan
  | _, .nan => .nan
  | .inf, .inf => .nan
  | .inf, .ninf => .nan
  | .ninf, .inf => .nan
  | .ninf, .ninf => .nan
  | .inf, .fin y => if 0 ≤ y then .inf else .ninf
  | .ninf, .fin y => if 0 ≤ y then .ninf else .inf
  | .fin _, .inf => .fin 0
  | .fin _, .ninf => .fin 0
  | .fin x, .fin y =>
    if y = 0 then (if x = 0 then .nan else if 0 < x then .inf else .ninf)
    else .fin (x / y)

/-- Rust `f64::max`: if one operand is NaN the other is returned, otherwise
the larger of the two. -/
def F64.max : F64 α → F64 α → F64 α
  | .nan, b => b
  | a, .nan => a
  | .inf, _ => .inf
  | _, .inf => .inf
  | .ninf, b => b
  | a, .ninf => a
  | .fin x, .fin y => .fin (Max.max x y)

/-- IEEE `f64` strict less-than, as a Bool: any comparison with NaN is false. -/
def F64.blt : F64 α → F64 α → Bool
  | .nan, _ => false
  | _, .nan => false
  | .ninf, .ninf => false
  | .ninf, _ => true
  | _, .ninf => false
  | .inf, _ => false
  | .fin _, .inf => true
  | .fin x, .fin y => decide (x < y)

/-- `x.powi(2)` of the source, i.e. `x * x`. -/
def F64.sq (a : F64 α) : F64 α := F64.mul a a

/-- The total order used to model the sort comparator
`|a, b| a.partial_cmp(b).unwrap()` of `compute_median` (line 30).  On inputs
without NaN — the only inputs on which the comparator does not panic, and the
only inputs on which the model invokes the sort — it agrees with the IEEE
order `-∞ < finite < +∞`; NaN is placed above `+∞` merely to make the order
total. -/
def F64.leT : F64 α → F64 α → Prop
  | .ninf, .ninf => True
  | .ninf, .fin _ => True
  | .ninf, .inf => True
  | .ninf, .nan => True
  | .fin _, .ninf => False
  | .fin x, .fin y => x ≤ y
  | .fin _, .inf => True
  | .fin _, .nan => True
  | .inf, .ninf => False
  | .inf, .fin _ => False
  | .inf, .inf => True
  | .inf, .nan => True
  | .nan, .ninf => False
  | .nan, .fin _ => False
  | .nan, .inf => False
  | .nan, .nan => True

instance : DecidableRel (F64.leT (α := α)) := fun a b => by
  cases a <;> cases b <;> simp only [F64.leT] <;> infer_instance

instance : IsTotal (F64 α) F64.leT :=
  ⟨fun a b => by cases a <;> cases b <;> simp [F64.leT, le_total]⟩

instance : IsTrans (F64 α) F64.leT :=
  ⟨fun a b c => by
    cases a <;> cases b <;> cases c <;> simp only [F64.leT] <;>
      first
        | exact fun _ _ => trivial
        | exact fun h _ => h.elim
        | exact fun _ h => h.elim
        | exact fun h1 h2 => le_trans h1 h2⟩

/-- Error-propagating map over a list, left to right: the embedding of a Rust
`for` loop that pushes one result per element and can panic at any element. -/
def mapE {β γ : Type} (f : β → Except Err γ) : List β → Except Err (List γ)
  | [] => .ok []
  | x :: xs =>
    match f x with
    | .error e => .error e
    | .ok y =>
      match mapE f xs with
      | .error e => .error e
      | .ok ys => .ok (y :: ys)

/-- Key lookup in an association list: the embedding of `HashMap::get` (the
maps of the source are keyed by the `i64` cluster number and hold each key
once). -/
def lookupA {β : Type} (l : List (Int × β)) (k : Int) : Option β :=
  match l with
  | [] => none
  | (k2, v) :: rest => if k = k2 then some v else lookupA rest k

/-- Embedding of `compute_median` (lines 28-44).  The source first clones and
sorts the vector with the comparator `a.partial_cmp(b).unwrap()`: if the
vector has at least two elements and contains a NaN, some comparison returns
`None` and the `unwrap()` panics, which the first branch models (with fewer
than two elements the comparator is never invoked).  Then it panics on the
empty vector, returns the middle element of the sorted vector for odd length,
and the average of the two middle elements for even length.  In-bounds
indexing `sorted_values[i]` is rendered with `getD` (the indices `len / 2`
and `len / 2 - 1` are within bounds whenever those branches run). -/
def compute_median (values : List (F64 α)) : Except Err (F64 α) :=
  if 2 ≤ values.length ∧ F64.nan ∈ values then
    .error (.panic ("called Option::unwrap() on a None value"))
  else
    let sorted := List.insertionSort F64.leT values
    let len := sorted.length
    if len = 0 then .error (.panic ("Cannot compute median of an empty vector"))
    else if len % 2 = 1 then .ok (sorted.getD (len / 2) F64.nan)
    else
      .ok (F64.div (F64.add (sorted.getD (len / 2 - 1) F64.nan)
        (sorted.getD (len / 2) F64.nan)) (F64.fin 2))

/-- Embedding of `compute_centroid` (lines 16-26).  The source panics on an
empty cluster, and then, for `i` in `0..points.get(0).unwrap().len()` — i.e.
for each index `i` below the dimension of the FIRST point — pushes
`compute_median(&points[i])`, the median of the coordinates of the `i`-th
POINT (not of the `i`-th coordinate across points).  `points[i]` panics when
`i` is out of bounds, modelled by the `none` branch. -/
def compute_centroid (points : List (Pt α)) : Except Err (Pt α) :=
  match points with
  | [] => .error (.panic ("Cannot compute a centroid of an empty cluster."))
  | p0 :: rest =>
    mapE (fun i =>
      match (p0 :: rest).get? i with
      | none => .error (.panic ("index out of bounds"))
      | some pi => compute_median pi) (List.range p0.length)

/-- Modelled from the spec: §4.2 describes the intended centroid as computed
"by reducing each coordinate independently across member points" using the
median, i.e. entry `j` of the centroid is the median over all member points
of the members' `j`-th coordinates.  The source contains no such function;
this definition exists only to be compared with `compute_centroid`. -/
def centroid_spec (points : List (Pt α)) : Except Err (Pt α) :=
  match points with
  | [] => .error Err.emptyCluster
  | p0 :: rest =>
    mapE (fun j => compute_median ((p0 :: rest).filterMap (fun p => p.get? j)))
      (List.range p0.length)

/-- Embedding of `compute_mean` (lines 46-53): the sum of the values (a fold
of `+` starting from `0.0`) divided by the length cast to `f64`.  On the
empty vector this is `0.0 / 0.0 = NaN`. -/
def compute_mean (values : List (F64 α)) : F64 α :=
  F64.div (values.foldl F64.add (F64.fin 0)) (F64.fin (values.length : α))

/-- IEEE `f64` square root: NaN for NaN and for negative arguments (including
`-∞`), `+∞` for `+∞`, exact on nonnegative finite values.  Defined over `ℝ`,
the carrier of the program's own metric. -/
noncomputable def F64.sqrt : F64 ℝ → F64 ℝ
  | .nan => .nan
  | .inf => .inf
  | .ninf => .nan
  | .fin x => if x < 0 then .nan else .fin (Real.sqrt x)

/-- Embedding of `euclidean_metric` (lines 55-67): panics when the two points
have different lengths, otherwise returns the square root of the sum of the
squared coordinate differences (`zip`, `map`, then the `f64` iterator `sum`,
which folds `+` from `0.0`).  Stated over `ℝ` because of the square root. -/
noncomputable def euclidean_metric (point_a point_b : Pt ℝ) : Except Err (F64 ℝ) :=
  if point_a.length ≠ point_b.length then
    .error (.panic ("Points must have the same dimension"))
  else
    .ok (F64.sqrt
      (((point_a.zip point_b).map (fun q => F64.sq (F64.sub q.1 q.2))).foldl
        F64.add (F64.fin 0)))

/-- Embedding of lines 82 and 86: the cohesion value
`a = ratio * d` with `ratio = points.len() / (points.len() - 1)` (as `f64`)
and `d` the distance from the point to its own cluster's centroid. -/
def cohesion (m : Nat) (d : F64 α) : F64 α :=
  F64.mul (F64.div (F64.fin (m : α)) (F64.sub (F64.fin (m : α)) (F64.fin 1))) d

/-- Embedding of line 99: the per-point silhouette coefficient
`s = (b - a) / a.max(b)`. -/
def silhouette_combine (a b : F64 α) : F64 α :=
  F64.div (F64.sub b a) (F64.max a b)

/-- Embedding of lines 88-98: starting from `b = f64::INFINITY`, iterate over
all cluster numbers, skip the point's own cluster, look the centroid up in
the `centroids` map (`unwrap`), and keep the smallest distance `d < b` from
the point to the other cluster's centroid. -/
def best_b (dist : Pt α → Pt α → Except Err (F64 α)) (point : Pt α) (my : Int)
    (centroids : List (Int × Pt α)) : List Int → F64 α → Except Err (F64 α)
  | [], b => .ok b
  | k :: keys, b =>
    if k = my then best_b dist point my centroids keys b
    else
      match lookupA centroids k with
      | none => .error (.panic ("called Option::unwrap() on a None value"))
      | some c2 =>
        match dist point c2 with
        | .error e => .error e
        | .ok d => best_b dist point my centroids keys (if F64.blt d b then d else b)

/-- Embedding of the body of the second cluster loop (lines 80-102) for one
cluster `(k, ps)`: look up the cluster's centroid, and for every point of the
cluster compute `a = ratio * dist(point, centroid)` (see `cohesion`), the
minimum other-centroid distance `b` (see `best_b`), and push
`(b - a) / a.max(b)` (see `silhouette_combine`). -/
def cluster_scores (dist : Pt α → Pt α → Except Err (F64 α))
    (centroids : List (Int × Pt α)) (keys : List Int) (k : Int) (ps : List (Pt α)) :
    Except Err (List (F64 α)) :=
  match lookupA centroids k with
  | none => .error (.panic ("called Option::unwrap() on a None value"))
  | some c =>
    mapE (fun point =>
      match dist point c with
      | .error e => .error e
      | .ok d =>
        match best_b dist point k centroids keys F64.inf with
        | .error e => .error e
        | .ok b => .ok (silhouette_combine (cohesion ps.length d) b)) ps

/-- Embedding of `compute_silhouette_score` (lines 69-105).  The cluster map
is embedded as an association list: the list order plays the role of the
(arbitrary but fixed) `HashMap` iteration order of `clusters.keys()`, which
the source reuses for both loops.  First loop: one centroid per cluster
(`compute_centroid` can panic).  Second loop: the per-point scores of each
cluster in order (see `cluster_scores`).  Finally the mean of all scores. -/
def compute_silhouette_score (clusters : List (Int × List (Pt α)))
    (dist : Pt α → Pt α → Except Err (F64 α)) : Except Err (F64 α) :=
  match mapE (fun kp =>
      match compute_centroid kp.2 with
      | .error e => .error e
      | .ok c => .ok (kp.1, c)) clusters with
  | .error e => .error e
  | .ok centroids =>
    match mapE (fun kp =>
        cluster_scores dist centroids (clusters.map Prod.fst) kp.1 kp.2) clusters with
    | .error e => .error e
    | .ok scoreLists => .ok (compute_mean scoreLists.flatten)

/-- The spec's notion of a score "in [-1, 1]": a finite value whose exact
magnitude is at most 1 (in particular NaN and ±∞ do not qualify). -/
def inUnit (v : F64 α) : Prop := ∃ x : α, v = F64.fin x ∧ -1 ≤ x ∧ x ≤ 1


@[simp] theorem F64.nan_ne_fin (x : α) : (F64.nan : F64 α) ≠ F64.fin x := fun h =>
  F64.noConfusion h

@[simp] theorem F64.fin_ne_nan (x : α) : F64.fin x ≠ (F64.nan : F64 α) := fun h =>
  F64.noConfusion h

theorem F64.add_nan (a : F64 α) : F64.add a F64.nan = F64.nan := by cases a <;> rfl

theorem F64.div_nan_fin (y : α) : F64.div F64.nan (F64.fin y) = F64.nan := rfl

/-- Whatever the cohesion value `a` is, combining it with the untouched
initial separation `b = +∞` gives NaN: `(∞ - a) / max(a, ∞) = ∞/∞` or
`NaN/∞`. -/
theorem silhouette_combine_inf (a : F64 α) : silhouette_combine a F64.inf = F64.nan := by
  cases a <;> rfl

/-- Folding `+` over a list of NaNs turns any accumulator into NaN. -/
theorem foldl_add_all_nan :
    ∀ (l : List (F64 α)) (acc : F64 α), l ≠ [] → (∀ v ∈ l, v = F64.nan) →
      l.foldl F64.add acc = F64.nan := by
  intro l
  induction l with
  | nil => intro acc h _; exact absurd rfl h
  | cons x xs ih =>
    intro acc _ hall
    have hx : x = F64.nan := hall x (List.mem_cons_self x xs)
    subst hx
    rcases List.eq_nil_or_concat xs with h | _
    · subst h; simp [List.foldl, F64.add_nan]
    · by_cases hnil : xs = []
      · subst hnil; simp [List.foldl, F64.add_nan]
      · have : List.foldl F64.add (F64.add acc F64.nan) xs = F64.nan :=
          ih (F64.add acc F64.nan) hnil (fun v hv => hall v (List.mem_cons_of_mem _ hv))
        simpa [List.foldl] using this

/-- `mapE` succeeds elementwise: if every element maps to an `ok` value
related to it, the whole map is `ok` with a pointwise-related output list. -/
theorem mapE_forall₂ {β γ : Type} {f : β → Except Err γ} {R : β → γ → Prop} :
    ∀ {l : List β}, (∀ x ∈ l, ∃ y, f x = .ok y ∧ R x y) →
      ∃ ys, mapE f l = .ok ys ∧ List.Forall₂ R l ys := by
  intro l
  induction l with
  | nil => exact fun _ => ⟨[], rfl, List.Forall₂.nil⟩
  | cons x xs ih =>
    intro h
    obtain ⟨y, hy, hR⟩ := h x (List.mem_cons_self x xs)
    obtain ⟨ys, hys, hRs⟩ := ih (fun z hz => h z (List.mem_cons_of_mem _ hz))
    exact ⟨y :: ys, by simp [mapE, hy, hys], List.Forall₂.cons hR hRs⟩

/-- A key that occurs in the key list of an association list can be looked
up. -/
theorem lookupA_isSome {β : Type} :
    ∀ {l : List (Int × β)} {k : Int}, k ∈ l.map Prod.fst → ∃ v, lookupA l k = some v := by
  intro l
  induction l with
  | nil => intro k h; simp at h
  | cons p rest ih =>
    intro k h
    by_cases hk : k = p.1
    · exact ⟨p.2, by simp [lookupA, hk]⟩
    · have : k ∈ rest.map Prod.fst := by
        rcases List.mem_cons.mp h with h1 | h1
        · exact absurd h1 hk
        · exact h1
      obtain ⟨v, hv⟩ := ih this
      exact ⟨v, by simp [lookupA, hk, hv]⟩

theorem F64.blt_fin_inf (x : α) : F64.blt (F64.fin x) F64.inf = true := rfl

/-- The cohesion of a point of a cluster with `m ≥ 2` members at finite
positive centroid distance `r` is the finite positive value
`(m / (m - 1)) * r`. -/
theorem cohesion_fin_pos {m : Nat} (hm : 2 ≤ m) {r : α} (hr : 0 < r) :
    ∃ x : α, 0 < x ∧ cohesion m (F64.fin r) = F64.fin x := by
  have hm1 : (1 : α) < (m : α) := by exact_mod_cast Nat.lt_of_lt_of_le Nat.one_lt_two hm
  have hsub : (m : α) - 1 ≠ 0 := by intro h; nlinarith
  have hmpos : (0 : α) < (m : α) := lt_trans zero_lt_one hm1
  have hquot : 0 < (m : α) / ((m : α) - 1) := div_pos hmpos (by linarith)
  refine ⟨(m : α) / ((m : α) - 1) * r, mul_pos hquot hr, ?_⟩
  simp [cohesion, F64.div, F64.sub, F64.mul, hsub]

/-- Key step of `best_b`: starting from a finite positive accumulator, if
every non-own key can be looked up and yields a finite positive distance,
the result is `ok` and finite positive. -/
theorem best_b_fin_pos {dist : Pt α → Pt α → Except Err (F64 α)} {point : Pt α}
    {my : Int} {centroids : List (Int × Pt α)} :
    ∀ {keys : List Int},
      (∀ k ∈ keys, k ≠ my → ∃ c2, lookupA centroids k = some c2 ∧
        ∃ r, 0 < r ∧ dist point c2 = .ok (F64.fin r)) →
      ∀ {v : α}, 0 < v →
        ∃ w, 0 < w ∧ best_b dist point my centroids keys (F64.fin v) = .ok (F64.fin w) := by
  intro keys
  induction keys with
  | nil => exact fun _ {v} hv => ⟨v, hv, rfl⟩
  | cons k rest ih =>
    intro h v hv
    by_cases hk : k = my
    · obtain ⟨w, hw, hbb⟩ := ih (fun z hz => h z (List.mem_cons_of_mem _ hz)) hv
      exact ⟨w, hw, by simp [best_b, hk, hbb]⟩
    · obtain ⟨c2, hc2, r, hr, hd⟩ := h k (List.mem_cons_self k rest) hk
      by_cases hcmp : r < v
      · obtain ⟨w, hw, hbb⟩ := ih (fun z hz => h z (List.mem_cons_of_mem _ hz)) hr
        exact ⟨w, hw, by simp [best_b, hk, hc2, hd, F64.blt, hcmp, hbb]⟩
      · obtain ⟨w, hw, hbb⟩ := ih (fun z hz => h z (List.mem_cons_of_mem _ hz)) hv
        exact ⟨w, hw, by simp [best_b, hk, hc2, hd, F64.blt, hcmp, hbb]⟩

/-- `best_b` from the initial `b = +∞`: as soon as some other key exists, the
result is `ok`, finite and positive. -/
theorem best_b_inf_fin_pos {dist : Pt α → Pt α → Except Err (F64 α)} {point : Pt α}
    {my : Int} {centroids : List (Int × Pt α)} :
    ∀ {keys : List Int},
      (∀ k ∈ keys, k ≠ my → ∃ c2, lookupA centroids k = some c2 ∧
        ∃ r, 0 < r ∧ dist point c2 = .ok (F64.fin r)) →
      (∃ k ∈ keys, k ≠ my) →
      ∃ w, 0 < w ∧ best_b dist point my centroids keys F64.inf = .ok (F64.fin w) := by
  intro keys
  induction keys with
  | nil => rintro _ ⟨k, hk, _⟩; simp at hk
  | cons k rest ih =>
    rintro h ⟨k0, hk0, hk0my⟩
    by_cases hk : k = my
    · have hk0rest : k0 ∈ rest := by
        rcases List.mem_cons.mp hk0 with h1 | h1
        · exact absurd (h1 ▸ hk) hk0my
        · exact h1
      obtain ⟨w, hw, hbb⟩ := ih (fun z hz => h z (List.mem_cons_of_mem _ hz)) ⟨k0, hk0rest, hk0my⟩
      exact ⟨w, hw, by simp [best_b, hk, hbb]⟩
    · obtain ⟨c2, hc2, r, hr, hd⟩ := h k (List.mem_cons_self k rest) hk
      obtain ⟨w, hw, hbb⟩ := best_b_fin_pos (fun z hz => h z (List.mem_cons_of_mem _ hz)) hr
      exact ⟨w, hw, by simp [best_b, hk, hc2, hd, F64.blt_fin_inf, hbb]⟩

/-- Combining finite positive cohesion and separation gives a finite
silhouette coefficient in `[-1, 1]`. -/
theorem silhouette_combine_fin_pos {x y : α} (hx : 0 < x) (hy : 0 < y) :
    ∃ s, silhouette_combine (F64.fin x) (F64.fin y) = F64.fin s ∧ -1 ≤ s ∧ s ≤ 1 := by
  have hmax : 0 < Max.max x y := lt_max_of_lt_left hx
  refine ⟨(y - x) / Max.max x y, ?_, ?_, ?_⟩
  · simp [silhouette_combine, F64.sub, F64.max, F64.div, ne_of_gt hmax]
  · rw [le_div_iff hmax]
    have : x ≤ Max.max x y := le_max_left x y
    nlinarith
  · rw [div_le_one hmax]
    have : y ≤ Max.max x y := le_max_right x y
    nlinarith

/-- Folding `f64` addition from a finite start over finite values that all
lie in `[-1, 1]` stays finite, within `length` of the start. -/
theorem foldl_add_bounds :
    ∀ (l : List (F64 α)) (acc : α),
      (∀ v ∈ l, ∃ x, v = F64.fin x ∧ -1 ≤ x ∧ x ≤ 1) →
      ∃ S, l.foldl F64.add (F64.fin acc) = F64.fin S ∧
        acc - l.length ≤ S ∧ S ≤ acc + l.length := by
  intro l
  induction l with
  | nil => intro acc _; exact ⟨acc, rfl, by simp, by simp⟩
  | cons v rest ih =>
    intro acc h
    obtain ⟨x, hv, hx1, hx2⟩ := h v (List.mem_cons_self v rest)
    subst hv
    obtain ⟨S, hS, hlo, hhi⟩ := ih (acc + x) (fun z hz => h z (List.mem_cons_of_mem _ hz))
    refine ⟨S, by simpa [List.foldl, F64.add] using hS, ?_, ?_⟩
    · push_cast [List.length_cons]
      push_cast at hlo
      linarith
    · push_cast [List.length_cons]
      push_cast at hhi
      linarith

/-- The mean of a non-empty list of finite scores that all lie in `[-1, 1]`
is finite and lies in `[-1, 1]`. -/
theorem compute_mean_bounds {l : List (F64 α)} (hne : l ≠ [])
    (h : ∀ v ∈ l, ∃ x, v = F64.fin x ∧ -1 ≤ x ∧ x ≤ 1) :
    ∃ s, compute_mean l = F64.fin s ∧ -1 ≤ s ∧ s ≤ 1 := by
  obtain ⟨S, hS, hlo, hhi⟩ := foldl_add_bounds l 0 h
  have hlen : 0 < l.length := List.length_pos.mpr hne
  have hlen' : (0 : α) < (l.length : α) := by exact_mod_cast hlen
  refine ⟨S / (l.length : α), ?_, ?_, ?_⟩
  · simp [compute_mean, hS, F64.div, ne_of_gt hlen']
  · rw [le_div_iff hlen']
    linarith
  · rw [div_le_one hlen']
    linarith

/-- On a non-empty NaN-free vector, `compute_median` does not panic. -/
theorem compute_median_ok {values : List (F64 α)} (hne : values ≠ [])
    (hnan : F64.nan ∉ values) : ∃ v, compute_median values = .ok v := by
  have hlen : values.length ≠ 0 := fun h => hne (List.length_eq_zero.mp h)
  unfold compute_median
  rw [if_neg (by tauto)]
  simp only [List.length_insertionSort]
  rw [if_neg hlen]
  by_cases hpar : values.length % 2 = 1
  · rw [if_pos hpar]; exact ⟨_, rfl⟩
  · rw [if_neg hpar]; exact ⟨_, rfl⟩

/-- A list of at least two distinct keys contains, for every key value, a
member different from it. -/
theorem exists_other_key {l : List Int} (h2 : 2 ≤ l.length) (hnd : l.Nodup) (k : Int) :
    ∃ k2 ∈ l, k2 ≠ k := by
  match l, h2 with
  | a :: b :: rest, _ =>
    have hab : a ≠ b := by
      simp only [List.nodup_cons, List.mem_cons] at hnd
      tauto
    by_cases hka : a = k
    · exact ⟨b, by simp, fun h => hab (by rw [hka, h])⟩
    · exact ⟨a, by simp, hka⟩

theorem forall₂_mem_right {β γ : Type} {R : β → γ → Prop} {l : List β} {ys : List γ}
    (h : List.Forall₂ R l ys) : ∀ y ∈ ys, ∃ x ∈ l, R x y := by
  induction h with
  | nil => simp
  | cons hr _ ih =>
    intro y hy
    rcases List.mem_cons.mp hy with h1 | h1
    · exact ⟨_, List.mem_cons_self _ _, h1 ▸ hr⟩
    · obtain ⟨x, hx, hR⟩ := ih y h1
      exact ⟨x, List.mem_cons_of_mem _ hx, hR⟩

theorem forall₂_fst_eq {γ δ : Type} {l : List (Int × γ)} {ys : List (Int × δ)}
    (h : List.Forall₂ (fun kp kc => kc.1 = kp.1) l ys) :
    ys.map Prod.fst = l.map Prod.fst := by
  induction h with
  | nil => rfl
  | cons hr _ ih => simp [ih, hr]

/-- Per-cluster score list under the hypotheses of the (amended) range claim:
all distances finite and positive, at least two members, every key resolvable
and some other cluster present.  Every produced coefficient is finite and in
`[-1, 1]`. -/
theorem cluster_scores_bounds {dist : Pt α → Pt α → Except Err (F64 α)}
    {centroids : List (Int × Pt α)} {keys : List Int} {k : Int} {ps : List (Pt α)}
    (hlook : ∀ k2 ∈ keys, ∃ c2, lookupA centroids k2 = some c2)
    (hck : ∃ c, lookupA centroids k = some c)
    (hm : 2 ≤ ps.length)
    (hdist : ∀ p q, ∃ r, 0 < r ∧ dist p q = .ok (F64.fin r))
    (hex : ∃ k2 ∈ keys, k2 ≠ k) :
    ∃ ss, cluster_scores dist centroids keys k ps = .ok ss ∧
      ss.length = ps.length ∧ ∀ s ∈ ss, ∃ x, s = F64.fin x ∧ -1 ≤ x ∧ x ≤ 1 := by
  obtain ⟨c, hc⟩ := hck
  have hbbhyp : ∀ point : Pt α, ∀ k2 ∈ keys, k2 ≠ k → ∃ c2, lookupA centroids k2 = some c2 ∧
      ∃ r, 0 < r ∧ dist point c2 = .ok (F64.fin r) := by
    intro point k2 hk2 _
    obtain ⟨c2, hc2⟩ := hlook k2 hk2
    obtain ⟨r, hr, hd⟩ := hdist point c2
    exact ⟨c2, hc2, r, hr, hd⟩
  have hpoint : ∀ p ∈ ps, ∃ s, (match dist p c with
      | .error e => Except.error e
      | .ok d =>
        match best_b dist p k centroids keys F64.inf with
        | .error e => Except.error e
        | .ok b => Except.ok (silhouette_combine (cohesion ps.length d) b)) = .ok s ∧
      ∃ x, s = F64.fin x ∧ -1 ≤ x ∧ x ≤ 1 := by
    intro p _
    obtain ⟨r, hr, hd⟩ := hdist p c
    obtain ⟨a, ha, hcoh⟩ := cohesion_fin_pos hm hr
    obtain ⟨b, hb, hbb⟩ := best_b_inf_fin_pos (hbbhyp p) hex
    obtain ⟨s, hs, hs1, hs2⟩ := silhouette_combine_fin_pos ha hb
    exact ⟨F64.fin s, by simp [hd, hbb, hcoh, hs], s, rfl, hs1, hs2⟩
  obtain ⟨ss, hss, hf⟩ := mapE_forall₂ hpoint
  refine ⟨ss, ?_, hf.length_eq.symm, ?_⟩
  · simp only [cluster_scores, hc]
    exact hss
  · intro s hs
    obtain ⟨p, -, hb⟩ := forall₂_mem_right hf s hs
    exact hb

/-- C1: the claim says the cohesion a(i) used for a point of a cluster with
at least two members equals the distance from the point to the cluster's
centroid.  The code (lines 82, 86) instead multiplies that distance by
`m / (m - 1)`: with `m = 2` members and centroid distance `1.0`, the value
used is `2.0`, not the distance `1.0`. -/
theorem C1_cohesion_is_scaled_distance :
    cohesion 2 (F64.fin (1 : ℝ)) = F64.fin 2 ∧ F64.fin (2 : ℝ) ≠ F64.fin 1 := by
  constructor
  · norm_num [cohesion, F64.div, F64.sub, F64.mul]
  · intro h
    injection h with h2
    norm_num at h2

/-- C3 (amended): the mean silhouette score is `ok`, finite and lies in
`[-1, 1]` provided that, in addition to the claim's hypotheses (at least two
clusters — with distinct labels, as `HashMap` keys are — and hence no cluster
equal to the whole dataset), every cluster has at least two members, every
centroid computation succeeds and the metric returns a finite positive
distance on every pair it is applied to.  The counterexample shows the extra
hypotheses are needed: with a singleton cluster or zero distances the code
returns NaN. -/
theorem C3_amended_score_in_unit_interval {clusters : List (Int × List (Pt α))}
    {dist : Pt α → Pt α → Except Err (F64 α)}
    (hk : 2 ≤ clusters.length)
    (hnd : (clusters.map Prod.fst).Nodup)
    (hm : ∀ kp ∈ clusters, 2 ≤ kp.2.length)
    (hdist : ∀ p q : Pt α, ∃ r, 0 < r ∧ dist p q = .ok (F64.fin r))
    (hcent : ∀ kp ∈ clusters, ∃ c, compute_centroid kp.2 = .ok c) :
    ∃ v, compute_silhouette_score clusters dist = .ok v ∧ inUnit v := by
  have h1 : ∀ kp ∈ clusters, ∃ kc, (match compute_centroid kp.2 with
      | .error e => Except.error e
      | .ok c => Except.ok (kp.1, c)) = .ok kc ∧ kc.1 = kp.1 := by
    intro kp hkp
    obtain ⟨c, hc⟩ := hcent kp hkp
    exact ⟨(kp.1, c), by simp [hc], rfl⟩
  obtain ⟨centroids, hcent2, hf1⟩ := mapE_forall₂ h1
  have hkeys : centroids.map Prod.fst = clusters.map Prod.fst := forall₂_fst_eq hf1
  have hlook : ∀ k2 ∈ clusters.map Prod.fst, ∃ c2, lookupA centroids k2 = some c2 :=
    fun k2 hk2 => lookupA_isSome (by rw [hkeys]; exact hk2)
  have hlen2 : 2 ≤ (clusters.map Prod.fst).length := by simpa using hk
  have h2 : ∀ kp ∈ clusters, ∃ ss,
      cluster_scores dist centroids (clusters.map Prod.fst) kp.1 kp.2 = .ok ss ∧
      ss.length = kp.2.length ∧ (∀ s ∈ ss, ∃ x, s = F64.fin x ∧ -1 ≤ x ∧ x ≤ 1) := by
    intro kp hkp
    have hmem : kp.1 ∈ clusters.map Prod.fst := List.mem_map_of_mem Prod.fst hkp
    exact cluster_scores_bounds hlook (hlook kp.1 hmem) (hm kp hkp) hdist
      (exists_other_key hlen2 hnd kp.1)
  have h2' : ∀ kp ∈ clusters, ∃ ss,
      cluster_scores dist centroids (clusters.map Prod.fst) kp.1 kp.2 = .ok ss ∧
      (ss.length = kp.2.length ∧ ∀ s ∈ ss, ∃ x, s = F64.fin x ∧ -1 ≤ x ∧ x ≤ 1) := by
    intro kp hkp
    obtain ⟨ss, ha, hb, hc⟩ := h2 kp hkp
    exact ⟨ss, ha, hb, hc⟩
  obtain ⟨scoreLists, hsl, hf2⟩ := mapE_forall₂ h2'
  have hallb : ∀ s ∈ scoreLists.flatten, ∃ x, s = F64.fin x ∧ -1 ≤ x ∧ x ≤ 1 := by
    intro s hs
    obtain ⟨ss, hssmem, hsin⟩ := List.mem_flatten.mp hs
    obtain ⟨kp, -, hR⟩ := forall₂_mem_right hf2 ss hssmem
    exact hR.2 s hsin
  have hflne : scoreLists.flatten ≠ [] := by
    cases hcl : clusters with
    | nil => rw [hcl] at hk; simp at hk
    | cons kp0 ctail =>
      rw [hcl] at hf2
      obtain ⟨ss0, sstail, hR0, -, hsleq⟩ := List.forall₂_cons_left_iff.mp hf2
      have hm0 : 2 ≤ kp0.2.length := hm kp0 (by rw [hcl]; exact List.mem_cons_self _ _)
      have hss0 : ss0 ≠ [] := by
        intro h
        rw [h] at hR0
        have := hR0.1
        simp at this
        omega
      intro hcontra
      rw [hsleq] at hcontra
      simp only [List.flatten_cons, List.append_eq_nil] at hcontra
      exact hss0 hcontra.1
  obtain ⟨s, hmean, hs1, hs2⟩ := compute_mean_bounds hflne hallb
  refine ⟨F64.fin s, ?_, s, rfl, hs1, hs2⟩
  simp only [compute_silhouette_score, hcent2, hsl]
  rw [hmean]

/-- C4 (amended): for a singleton cluster the code computes
`ratio = 1/(1-1) = +∞` and `a = ∞ · d`; the cohesion is therefore `+∞` for a
positive centroid distance and NaN — not the claimed `0` — when the point
coincides with its centroid (which is always the case in one dimension). -/
theorem C4_amended_singleton_cohesion :
    (∀ r : α, 0 < r → cohesion 1 (F64.fin r) = F64.inf) ∧
      cohesion 1 (F64.fin (0 : α)) = F64.nan := by
  constructor
  · intro r hr
    norm_num [cohesion, F64.div, F64.sub, F64.mul, hr, hr.ne']
  · norm_num [cohesion, F64.div, F64.sub, F64.mul]

/-- C5 (amended): the per-point coefficient is `(b - a) / max(a, b)` exactly
as claimed whenever `max(a, b) > 0`, but in the degenerate case
`a = b = 0` the code divides `0.0` by `0.0` and produces NaN, not the claimed
`0`. -/
theorem C5_amended_per_point_coefficient :
    (∀ x y : α, 0 ≤ x → 0 ≤ y → 0 < Max.max x y →
      silhouette_combine (F64.fin x) (F64.fin y) = F64.fin ((y - x) / Max.max x y)) ∧
      silhouette_combine (F64.fin (0 : α)) (F64.fin 0) = F64.nan := by
  constructor
  · intro x y _ _ hmax
    simp [silhouette_combine, F64.sub, F64.max, F64.div, ne_of_gt hmax]
  · norm_num [silhouette_combine, F64.sub, F64.max, F64.div]

/-- C6 (amended): on a dataset with a single cluster the computation does not
fail with a `SingleClusterDataset` error; it returns `ok NaN`.  The inner
loop finds no other cluster, `b` stays `+∞`, every per-point coefficient is
`(∞ - a)/max(a, ∞) = NaN`, and so is their mean.  Hypotheses: the cluster is
non-empty, its centroid computation succeeds and the metric answers on each
(point, centroid) pair. -/
theorem C6_amended_single_cluster_returns_nan {k : Int} {ps : List (Pt α)}
    {dist : Pt α → Pt α → Except Err (F64 α)} {c : Pt α}
    (hne : ps ≠ []) (hc : compute_centroid ps = .ok c)
    (hd : ∀ p ∈ ps, ∃ v, dist p c = .ok v) :
    compute_silhouette_score [(k, ps)] dist = .ok F64.nan := by
  have hcent1 : mapE (fun kp => match compute_centroid kp.2 with
      | .error e => Except.error e
      | .ok c2 => Except.ok (kp.1, c2)) [(k, ps)] = .ok [(k, c)] := by
    simp [mapE, hc]
  have hscores : ∀ p ∈ ps, ∃ s, (match dist p c with
      | .error e => Except.error e
      | .ok d =>
        match best_b dist p k [(k, c)] [k] F64.inf with
        | .error e => Except.error e
        | .ok b => Except.ok (silhouette_combine (cohesion ps.length d) b)) = .ok s ∧
        s = F64.nan := by
    intro p hp
    obtain ⟨v, hv⟩ := hd p hp
    exact ⟨F64.nan, by simp [hv, best_b, silhouette_combine_inf], rfl⟩
  obtain ⟨ss, hss, hf⟩ := mapE_forall₂ hscores
  have hallnan : ∀ v ∈ ss, v = F64.nan := by
    intro v hv
    obtain ⟨-, -, h⟩ := forall₂_mem_right hf v hv
    exact h
  have hssne : ss ≠ [] := by
    intro h
    apply hne
    apply List.length_eq_zero.mp
    rw [hf.length_eq, h]
    rfl
  have hmean : compute_mean ss = F64.nan := by
    unfold compute_mean
    rw [foldl_add_all_nan ss (F64.fin 0) hssne hallnan]
    rfl
  have hclsc : cluster_scores dist [(k, c)] [k] k ps = .ok ss := by
    simp only [cluster_scores, lookupA, if_pos rfl]
    exact hss
  simp only [compute_silhouette_score, hcent1]
  simp [mapE, hclsc, hmean]

/-- C7 (amended): on the empty dataset the computation does not fail with an
`EmptyDataset` error; no scores are collected and the returned mean is
`0.0 / 0.0 = NaN`, wrapped in `ok`, for every distance metric. -/
theorem C7_amended_empty_dataset_returns_nan
    (dist : Pt α → Pt α → Except Err (F64 α)) :
    compute_silhouette_score [] dist = .ok F64.nan := by
  simp [compute_silhouette_score, mapE, compute_mean, F64.div]

/-- C8 (amended): two points of different dimension make `euclidean_metric`
fail by a panic with the message "Points must have the same dimension" — a
process abort, not the claimed recoverable `DimensionMismatch` error value
(the source has no error type at all). -/
theorem C8_amended_mismatch_panics (point_a point_b : Pt ℝ)
    (h : point_a.length ≠ point_b.length) :
    euclidean_metric point_a point_b =
      .error (.panic ("Points must have the same dimension")) := by
  simp [euclidean_metric, h]

/-- C9: on a non-empty vector without NaN, `compute_median` returns the
middle element of an ascending sorted rearrangement of the vector when the
length is odd, and the `f64` average of the two middle elements when the
length is even.  (`F64.leT` restricted to NaN-free values is exactly the
ascending order of `f64`.) -/
theorem C9_median_of_sorted {values : List (F64 α)} (hne : values ≠ [])
    (hnan : F64.nan ∉ values) :
    ∃ l, values.Perm l ∧ l.Sorted F64.leT ∧
      compute_median values = .ok (if values.length % 2 = 1 then
        l.getD (values.length / 2) F64.nan
      else F64.div (F64.add (l.getD (values.length / 2 - 1) F64.nan)
        (l.getD (values.length / 2) F64.nan)) (F64.fin 2)) := by
  refine ⟨List.insertionSort F64.leT values, (List.perm_insertionSort _ _).symm,
    List.sorted_insertionSort _ _, ?_⟩
  unfold compute_median
  rw [if_neg (by tauto)]
  simp only [List.length_insertionSort]
  have hlen : values.length ≠ 0 := fun h => hne (List.length_eq_zero.mp h)
  rw [if_neg hlen]
  by_cases hpar : values.length % 2 = 1
  · rw [if_pos hpar, if_pos hpar]
  · rw [if_neg hpar, if_neg hpar]

/-- C10 (amended): `compute_centroid` is total on a non-empty cluster of
NaN-free `d`-dimensional points provided the cluster has at least `d`
members; the counterexample shows that with fewer members than dimensions
the claim fails (the loop indexes the member list by the coordinate index).
The returned centroid has one entry per dimension. -/
theorem C10_amended_centroid_total_when_enough_points {points : List (Pt α)} {dd : Nat}
    (hne : points ≠ []) (hdim : ∀ p ∈ points, p.length = dd ∧ F64.nan ∉ p)
    (hcount : dd ≤ points.length) :
    ∃ c, compute_centroid points = .ok c ∧ c.length = dd := by
  match points, hne with
  | p0 :: rest, _ =>
    have hp0 : p0.length = dd := (hdim p0 (List.mem_cons_self _ _)).1
    have hidx : ∀ i ∈ List.range p0.length, ∃ y,
        (match (p0 :: rest).get? i with
          | none => Except.error (Err.panic ("index out of bounds"))
          | some pi => compute_median pi) = .ok y ∧ True := by
      intro i hi
      have hilt : i < dd := hp0 ▸ List.mem_range.mp hi
      have hib : i < (p0 :: rest).length := lt_of_lt_of_le hilt hcount
      have hpi : (p0 :: rest).get? i = some ((p0 :: rest).get ⟨i, hib⟩) :=
        List.get?_eq_get hib
      have hdp := hdim ((p0 :: rest).get ⟨i, hib⟩) (List.get_mem _ _ _)
      have hpine : (p0 :: rest).get ⟨i, hib⟩ ≠ [] := by
        intro h
        rw [h] at hdp
        simp at hdp
        omega
      obtain ⟨v, hv⟩ := compute_median_ok hpine hdp.2
      exact ⟨v, by rw [hpi]; exact hv, trivial⟩
    obtain ⟨c, hc, hfc⟩ := mapE_forall₂ hidx
    refine ⟨c, ?_, ?_⟩
    · unfold compute_centroid
      exact hc
    · have : (List.range p0.length).length = c.length := hfc.length_eq
      simp only [List.length_range] at this
      rw [← this, hp0]

/-- C2: the centroid of the cluster `{(0, 10), (0, 20)}` (two 2-D points).
The coordinate-wise median prescribed by the claim is `(0, 15)` (computed by
`centroid_spec`), but the code returns `(5, 10)`: its loop runs over the
coordinate indices yet indexes the POINT list, so it returns the median of
each of the first `d` points' coordinate vectors. -/
theorem C2_centroid_not_coordinatewise_median :
    compute_centroid [[F64.fin (0:ℝ), F64.fin 10], [F64.fin 0, F64.fin 20]] =
        .ok [F64.fin 5, F64.fin 10] ∧
      centroid_spec [[F64.fin (0:ℝ), F64.fin 10], [F64.fin 0, F64.fin 20]] =
        .ok [F64.fin 0, F64.fin 15] ∧
      ([F64.fin (5:ℝ), F64.fin 10] : Pt ℝ) ≠ [F64.fin 0, F64.fin 15] := by
  refine ⟨?_, ?_, ?_⟩
  · norm_num [compute_centroid, mapE, compute_median, List.insertionSort,
      List.orderedInsert, F64.leT, F64.add, F64.div, List.range_succ]
  · norm_num [centroid_spec, mapE, compute_median, List.insertionSort,
      List.orderedInsert, F64.leT, F64.add, F64.div, List.range_succ, List.filterMap]
  · intro h
    have := List.head_eq_of_cons_eq h
    injection this with h5
    norm_num at h5

/-- C3 (counterexample): the dataset `{0 ↦ {0.0}, 1 ↦ {0.0, 0.0}}` has two
clusters and no cluster equal to the entire dataset (sizes 1 and 2 of 3), yet
the returned mean silhouette score is NaN, which does not lie in `[-1, 1]`:
the singleton cluster makes `a = (1/0)·0 = NaN` and the zero distances make
the other coefficients `0/0 = NaN`. -/
theorem C3_counterexample_score_nan :
    [((0:Int), [[F64.fin (0:ℝ)]]), ((1:Int), [[F64.fin 0], [F64.fin 0]])].length = 2 ∧
      (∀ kp ∈ [((0:Int), [[F64.fin (0:ℝ)]]), ((1:Int), [[F64.fin 0], [F64.fin 0]])],
        kp.2.length < 3) ∧
      compute_silhouette_score
        [((0:Int), [[F64.fin (0:ℝ)]]), ((1:Int), [[F64.fin 0], [F64.fin 0]])]
        euclidean_metric = .ok F64.nan ∧
      ¬ inUnit (F64.nan : F64 ℝ) := by
  refine ⟨rfl, ?_, ?_, ?_⟩
  · intro kp hkp
    rcases List.mem_cons.mp hkp with rfl | hkp2
    · norm_num
    · rcases List.mem_cons.mp hkp2 with rfl | hkp3
      · norm_num
      · simp at hkp3
  · norm_num [compute_silhouette_score, mapE, compute_centroid, compute_median,
      List.insertionSort, List.orderedInsert, F64.leT, cluster_scores, lookupA, best_b,
      cohesion, silhouette_combine, compute_mean, euclidean_metric, F64.sqrt,
      F64.add, F64.sub, F64.mul, F64.div, F64.max, F64.blt, F64.sq, List.range_succ,
      Real.sqrt_zero, Real.sqrt_one]
  · rintro ⟨x, h, -⟩
    exact F64.nan_ne_fin x h

/-- C4 (counterexample): for a point of a singleton cluster at distance `0`
from its centroid (the situation of every 1-D singleton cluster), the
cohesion the code uses is `(1/(1-1))·0 = ∞·0 = NaN`, not the claimed `0`. -/
theorem C4_counterexample_singleton_cohesion_nan :
    cohesion 1 (F64.fin (0:ℝ)) = F64.nan ∧ F64.nan ≠ F64.fin (0:ℝ) := by
  constructor
  · norm_num [cohesion, F64.div, F64.sub, F64.mul]
  · exact F64.nan_ne_fin 0

/-- C5 (counterexample): with `a = b = 0` the code produces
`(0 - 0)/max(0, 0) = 0/0 = NaN`, not the claimed `0`. -/
theorem C5_counterexample_zero_zero_nan :
    silhouette_combine (F64.fin (0:ℝ)) (F64.fin 0) = F64.nan ∧ F64.nan ≠ F64.fin (0:ℝ) := by
  constructor
  · norm_num [silhouette_combine, F64.sub, F64.max, F64.div]
  · exact F64.nan_ne_fin 0

/-- C6 (counterexample): on the single-cluster dataset `{0 ↦ {0.0, 1.0}}`
the computation returns the numeric result `ok NaN` instead of failing with
`SingleClusterDataset`. -/
theorem C6_counterexample_single_cluster_nan :
    compute_silhouette_score [((0:Int), [[F64.fin (0:ℝ)], [F64.fin 1]])]
        euclidean_metric = .ok F64.nan ∧
      (Except.ok F64.nan : Except Err (F64 ℝ)) ≠ .error Err.singleClusterDataset := by
  constructor
  · norm_num [compute_silhouette_score, mapE, compute_centroid, compute_median,
      List.insertionSort, List.orderedInsert, F64.leT, cluster_scores, lookupA, best_b,
      cohesion, silhouette_combine, compute_mean, euclidean_metric, F64.sqrt,
      F64.add, F64.sub, F64.mul, F64.div, F64.max, F64.blt, F64.sq, List.range_succ,
      Real.sqrt_zero, Real.sqrt_one]
  · simp

/-- C7 (counterexample): on the empty dataset the computation returns the
numeric result `ok NaN` (`0.0/0.0`) instead of failing with `EmptyDataset`. -/
theorem C7_counterexample_empty_dataset_nan :
    compute_silhouette_score ([] : List (Int × List (Pt ℝ))) euclidean_metric =
        .ok F64.nan ∧
      (Except.ok F64.nan : Except Err (F64 ℝ)) ≠ .error Err.emptyDataset := by
  constructor
  · norm_num [compute_silhouette_score, mapE, compute_mean, F64.div]
  · simp

/-- C8 (counterexample): comparing a 2-D point with a 3-D point makes the
metric panic with the message "Points must have the same dimension"; the
failure is not the distinct recoverable `DimensionMismatch` error value the
claim describes. -/
theorem C8_counterexample_mismatch_is_panic :
    euclidean_metric [F64.fin 0, F64.fin 0] [F64.fin 0, F64.fin 0, F64.fin 0] =
        .error (.panic ("Points must have the same dimension")) ∧
      Err.panic ("Points must have the same dimension") ≠ Err.dimensionMismatch := by
  constructor
  · norm_num [euclidean_metric]
  · simp

/-- C10 (counterexample): a non-empty cluster consisting of one 2-D point
makes `compute_centroid` panic: the loop runs the coordinate indices `0, 1`
over the 1-element point list and `points[1]` is out of bounds. -/
theorem C10_counterexample_centroid_out_of_bounds :
    ([[F64.fin (0:ℝ), F64.fin 0]] : List (Pt ℝ)) ≠ [] ∧
      compute_centroid [[F64.fin (0:ℝ), F64.fin 0]] =
        .error (.panic ("index out of bounds")) := by
  constructor
  · simp
  · norm_num [compute_centroid, mapE, compute_median, List.insertionSort,
      List.orderedInsert, F64.leT, F64.add, F64.div, List.range_succ]

/-- Witness for the amended C3 at a concrete dataset: two clusters of two
identical points each, constant metric `1`. -/
theorem C3_amended_witness :
    ∃ v, compute_silhouette_score
      [((0:Int), [[F64.fin (0:ℝ)], [F64.fin 0]]), ((1:Int), [[F64.fin 0], [F64.fin 0]])]
      (fun _ _ => .ok (F64.fin 1)) = .ok v ∧ inUnit v := by
  apply C3_amended_score_in_unit_interval
  · norm_num
  · simp
  · intro kp hkp
    rcases List.mem_cons.mp hkp with rfl | hkp2
    · norm_num
    · rcases List.mem_cons.mp hkp2 with rfl | hkp3
      · norm_num
      · simp at hkp3
  · intro p q
    exact ⟨1, by norm_num, rfl⟩
  · intro kp hkp
    rcases List.mem_cons.mp hkp with rfl | hkp2
    · exact ⟨[F64.fin 0], by norm_num [compute_centroid, mapE, compute_median,
        List.insertionSort, List.orderedInsert, F64.leT, F64.add, F64.div, List.range_succ]⟩
    · rcases List.mem_cons.mp hkp2 with rfl | hkp3
      · exact ⟨[F64.fin 0], by norm_num [compute_centroid, mapE, compute_median,
          List.insertionSort, List.orderedInsert, F64.leT, F64.add, F64.div, List.range_succ]⟩
      · simp at hkp3

/-- Witness for the amended C4: a singleton cluster at positive centroid
distance gives cohesion `+∞`. -/
theorem C4_amended_witness : cohesion 1 (F64.fin (2:ℝ)) = F64.inf :=
  C4_amended_singleton_cohesion.1 2 (by norm_num)

/-- Witness for the amended C5: the coefficient formula at `a = 0`, `b = 2`. -/
theorem C5_amended_witness :
    silhouette_combine (F64.fin (0:ℝ)) (F64.fin 2) = F64.fin ((2 - 0) / Max.max 0 2) :=
  C5_amended_per_point_coefficient.1 0 2 le_rfl (by norm_num) (by norm_num)

/-- Witness for the amended C6: a concrete single-cluster dataset with the
constant metric `1` returns `ok NaN`. -/
theorem C6_amended_witness :
    compute_silhouette_score [((5:Int), [[F64.fin (0:ℝ)], [F64.fin 1]])]
      (fun _ _ => .ok (F64.fin 1)) = .ok F64.nan := by
  apply C6_amended_single_cluster_returns_nan (c := [F64.fin 0])
  · simp
  · norm_num [compute_centroid, mapE, compute_median, List.insertionSort,
      List.orderedInsert, F64.leT, F64.add, F64.div, List.range_succ]
  · intro p hp
    exact ⟨F64.fin 1, rfl⟩

/-- Witness for the amended C7 with a concrete metric. -/
theorem C7_amended_witness :
    compute_silhouette_score ([] : List (Int × List (Pt ℝ)))
      (fun _ _ => .ok (F64.fin 1)) = .ok F64.nan :=
  C7_amended_empty_dataset_returns_nan _

/-- Witness for the amended C8: a 1-D point against a 2-D point. -/
theorem C8_amended_witness :
    euclidean_metric [F64.fin 0] [F64.fin 0, F64.fin 0] =
      .error (.panic ("Points must have the same dimension")) :=
  C8_amended_mismatch_panics _ _ (by norm_num)

/-- Witness for C9 at the concrete vector `[3.0, 1.0, 2.0]`. -/
theorem C9_median_of_sorted_witness :
    ∃ l, ([F64.fin (3:ℝ), F64.fin 1, F64.fin 2] : List (F64 ℝ)).Perm l ∧
      l.Sorted F64.leT ∧
      compute_median ([F64.fin (3:ℝ), F64.fin 1, F64.fin 2] : List (F64 ℝ)) =
        .ok (if ([F64.fin (3:ℝ), F64.fin 1, F64.fin 2] : List (F64 ℝ)).length % 2 = 1 then
          l.getD (([F64.fin (3:ℝ), F64.fin 1, F64.fin 2] : List (F64 ℝ)).length / 2) F64.nan
        else F64.div (F64.add
          (l.getD (([F64.fin (3:ℝ), F64.fin 1, F64.fin 2] : List (F64 ℝ)).length / 2 - 1)
            F64.nan)
          (l.getD (([F64.fin (3:ℝ), F64.fin 1, F64.fin 2] : List (F64 ℝ)).length / 2)
            F64.nan)) (F64.fin 2)) :=
  C9_median_of_sorted (by simp) (by simp)

/-- Witness for the amended C10: two 1-D points, centroid computed totally. -/
theorem C10_amended_witness :
    ∃ c, compute_centroid [[F64.fin (1:ℝ)], [F64.fin 2]] = .ok c ∧ c.length = 1 := by
  apply C10_amended_centroid_total_when_enough_points
  · simp
  · intro p hp
    rcases List.mem_cons.mp hp with rfl | hp2
    · exact ⟨rfl, by simp⟩
    · rcases List.mem_cons.mp hp2 with rfl | hp3
      · exact ⟨rfl, by simp⟩
      · simp at hp3
  · norm_num
